import Mathlib

/-!
Verification of the roadmap-tool repository (Excel → PowerPoint roadmap deck).

Shallow embedding of the arithmetic and list-processing core of
`src/roadmap_ppt/generator.py` (and its older duplicate `main.py`):

* the text-height estimator `calculate_text_height` (generator.py:332-371),
* the pagination used by `create_objectives_slide` (generator.py:474-477,
  622-625) and `create_roadmap_slides` (generator.py:831-837, 895-899),
* the timeline/phase grouping of `create_roadmap_slides` (generator.py:809-814)
  and of `create_timeline_overview_slide` (generator.py:700-722),
* the column resolution of `read_roadmap` (generator.py:124-131).

Modelling conventions:

* Lengths are inches as exact rationals.  python-pptx stores lengths as EMU
  integers (1 inch = 914400 EMU) and Python computes with IEEE-754 doubles;
  both quantisations are abstracted to exact rational arithmetic, which is the
  arithmetic the specification itself uses.
* Python `int(x)` (truncation towards zero) is `pyInt`; Python `//` on
  integers (floor division) is `Int.fdiv`.
* A Python expression that can raise (`ZeroDivisionError`) is embedded as an
  `Option`-valued function, `none` being the raised exception.
* pandas `NaN` cells are `Option.none`; `dropna` is `List.filterMap id`-style
  filtering.  pandas `groupby(key)` with the default `sort=True` iterates the
  distinct keys in ascending order and keeps the original row order inside
  each group; `groupby(key, sort=False)` iterates the distinct keys in order
  of first appearance.
-/

/-- Python `int(x)` for a rational `x`: truncation towards zero. -/
def pyInt (q : ℚ) : ℤ := if 0 ≤ q then ⌊q⌋ else ⌈q⌉

theorem pyInt_eq_floor {q : ℚ} (h : 0 ≤ q) : pyInt q = ⌊q⌋ := by
  simp [pyInt, h]

/-- Python truthiness of an optional length argument (`None` and `0` are
falsy), as used by `min_height or Inches(0.5)` and by
`if min_height and ...` in `calculate_text_height`. -/
def pyTruthy : Option ℚ → Bool
  | none => false
  | some m => decide (m ≠ 0)

/-- Python `a or b` where `a` is an optional length and `b` a default:
returns `a` when `a` is truthy, else `b` (generator.py:347). -/
def pyOrQ (o : Option ℚ) (d : ℚ) : ℚ :=
  match o with
  | none => d
  | some m => if m = 0 then d else m

/-- `chars_per_inch = max(8, 12 * (18 / font_size.pt))` (generator.py:351). -/
def chars_per_inch (fontSize : ℚ) : ℚ := max 8 (12 * (18 / fontSize))

/-- `chars_per_line = int(width / Inches(1) * chars_per_inch)`
(generator.py:352); `width` is kept in inches, so `width / Inches(1)` is
`width` itself. -/
def chars_per_line (width fontSize : ℚ) : ℤ := pyInt (width * chars_per_inch fontSize)

/-- `estimated_lines = max(1, (len(text) // chars_per_line) + 1)` followed by
`estimated_lines = int(estimated_lines * 1.2)` (generator.py:356-359), as a
function of the text length `n` and of `chars_per_line`; Python `//` is floor
division (`Int.fdiv`) and `1.2` is written `6/5`. -/
def estimated_lines (n : ℕ) (cpl : ℤ) : ℤ :=
  pyInt (((max 1 ((n : ℤ).fdiv cpl + 1) : ℤ) : ℚ) * (6/5))

/-- `estimated_height = estimated_lines * (font_size.pt * 1.2 / 72)`
(generator.py:362-363). -/
def estimated_height (n : ℕ) (cpl : ℤ) (fontSize : ℚ) : ℚ :=
  ((estimated_lines n cpl : ℤ) : ℚ) * (fontSize * (6/5) / 72)

/-- `if min_height and estimated_height < min_height: estimated_height =
min_height` (generator.py:366-367); `min_height` is truthy when present and
non-zero. -/
def clamp_min (o : Option ℚ) (h : ℚ) : ℚ :=
  match o with
  | none => h
  | some m => if m ≠ 0 ∧ h < m then m else h

/-- `if max_height and estimated_height > max_height: estimated_height =
max_height` (generator.py:368-369). -/
def clamp_max (o : Option ℚ) (h : ℚ) : ℚ :=
  match o with
  | none => h
  | some m => if m ≠ 0 ∧ m < h then m else h

/-- `calculate_text_height(text, width, font_size, min_height, max_height)`
(generator.py:332-371), statement by statement:

* `if not text: return min_height or Inches(0.5)`;
* `chars_per_inch`, `chars_per_line` as above;
* `estimated_lines = max(1, (len(text) // chars_per_line) + 1)` — this is the
  sole division; when `chars_per_line == 0` Python raises
  `ZeroDivisionError`, embedded as `none`;
* `estimated_lines = int(estimated_lines * 1.2)`;
* `line_height = font_size.pt * 1.2 / 72`;
* `estimated_height = Inches(estimated_lines * line_height)`;
* raise to `min_height` / cap to `max_height` when those are truthy. -/
def calculate_text_height (text : String) (width fontSize : ℚ)
    (minHeight maxHeight : Option ℚ) : Option ℚ :=
  if text.length = 0 then
    some (pyOrQ minHeight (1/2))
  else if chars_per_line width fontSize = 0 then
    none
  else
    some (clamp_max maxHeight (clamp_min minHeight
      (estimated_height text.length (chars_per_line width fontSize) fontSize)))

/-- The spec's `estimated_lines`: `max(1, floor(len(text) / chars_per_line) +
1)`, inflated by 20% and floored to an integer. -/
def spec_lines (n : ℕ) (cpl : ℤ) : ℤ :=
  ⌊((max 1 ((n : ℤ).fdiv cpl + 1) : ℤ) : ℚ) * (6/5)⌋

/-- The spec's raw height: `estimated_lines * (font_size_points * 1.2 / 72)`
inches. -/
def spec_height_raw (n : ℕ) (cpl : ℤ) (fontSize : ℚ) : ℚ :=
  ((spec_lines n cpl : ℤ) : ℚ) * (fontSize * (6/5) / 72)

/-- The spec's lower clamp: raised to `min_height` if supplied and the
estimate is below it. -/
def spec_clamp_min (o : Option ℚ) (h : ℚ) : ℚ :=
  match o with
  | none => h
  | some m => if h < m then m else h

/-- The spec's upper clamp: capped to `max_height` if supplied and the
estimate is above it. -/
def spec_clamp_max (o : Option ℚ) (h : ℚ) : ℚ :=
  match o with
  | none => h
  | some m => if m < h then m else h

/-- The height formula exactly as the specification words it (spec.md §4.2):
`chars_per_inch = max(8, 12 * (18 / font_size_points))`;
`chars_per_line = floor(width * chars_per_inch)`;
`estimated_lines = max(1, floor(len(text) / chars_per_line) + 1)` inflated by
20% and floored to an integer; `height = estimated_lines * (font_size * 1.2 /
72)`, raised to `min_height` when supplied and the estimate is below it, then
capped to `max_height` when supplied and the estimate is above it; empty text
gives `min_height` when supplied, else 0.5 inches. -/
def spec_text_height (text : String) (width fontSize : ℚ)
    (minHeight maxHeight : Option ℚ) : ℚ :=
  if text.length = 0 then
    minHeight.getD (1/2)
  else
    spec_clamp_max maxHeight (spec_clamp_min minHeight
      (spec_height_raw text.length ⌊width * max 8 (12 * (18 / fontSize))⌋ fontSize))

/-- Every bound that is supplied is positive (the configured bounds
`NORTH_STAR_MIN_HEIGHT = 0.8` and `NORTH_STAR_MAX_HEIGHT = 3.0` are). -/
def optPos : Option ℚ → Prop
  | none => True
  | some m => 0 < m

/-! ## Pagination (create_objectives_slide, generator.py:474-477 and 622-625;
create_roadmap_slides, generator.py:831-837 and 895-899) -/

/-- `items_per_slide = max(1, int(available_height / ITEM_HEIGHT_ESTIMATE))`
(generator.py:475 and 833).  In Python both heights are EMU integers and `/`
is true division, so `int(...)` of the positive quotient is its floor. -/
def items_per_slide (availableHeight itemEstimate : ℚ) : ℕ :=
  max (pyInt (availableHeight / itemEstimate)).toNat 1

/-- `slides_needed = max(1, (total + ipp - 1) // ipp) if total > 0 else 1`
(generator.py:477). -/
def slides_needed (total ipp : ℕ) : ℕ :=
  if 0 < total then max ((total + ipp - 1) / ipp) 1 else 1

/-- `slides_needed = max(1, (max_items_any_phase + ipp - 1) // ipp)`
(generator.py:837; no special case for zero items). -/
def roadmap_slides_needed (maxItems ipp : ℕ) : ℕ :=
  max ((maxItems + ipp - 1) / ipp) 1

/-- The slice a page receives: `start_idx = slide_num * items_per_slide`,
`end_idx = min(start_idx + items_per_slide, total)`,
`items[start_idx:end_idx]` (generator.py:623-625 and 896-899). -/
def page_slice (l : List α) (ipp i : ℕ) : List α :=
  (l.drop (i * ipp)).take (min (i * ipp + ipp) l.length - i * ipp)

/-- The ordered key-element slices of the slides emitted by
`create_objectives_slide` (generator.py:483, 622-625): one slide per page
number, each carrying its slice of the key-element list. -/
def create_objectives_slide (ipp : ℕ) (keyElements : List α) : List (List α) :=
  (List.range (slides_needed keyElements.length ipp)).map
    (fun n => page_slice keyElements ipp n)

theorem page_slice_eq_take (l : List α) (ipp i : ℕ) :
    page_slice l ipp i = (l.drop (i * ipp)).take ipp := by
  unfold page_slice
  rcases le_or_lt (i * ipp + ipp) l.length with h | h
  · rw [min_eq_left h]
    congr 1
    omega
  · rw [min_eq_right (le_of_lt h)]
    have hlen : (l.drop (i * ipp)).length = l.length - i * ipp :=
      List.length_drop (i * ipp) l
    rw [← hlen, List.take_length]
    exact (List.take_of_length_le (by omega)).symm

theorem flatten_page_slices (l : List α) (ipp : ℕ) :
    ∀ n, ((List.range n).map (fun i => page_slice l ipp i)).flatten = l.take (n * ipp) := by
  intro n
  induction n with
  | zero => simp
  | succ n ih =>
      rw [List.range_succ, List.map_append, List.flatten_append, ih]
      simp only [List.map_cons, List.map_nil, List.flatten_cons, List.flatten_nil,
        List.append_nil, page_slice_eq_take]
      rw [← List.take_add]
      congr 1
      ring

theorem le_ceil_div_mul (a b : ℕ) (hb : 1 ≤ b) : a ≤ (a + b - 1) / b * b := by
  rcases Nat.eq_zero_or_pos a with rfl | ha
  · simp
  · by_contra hc
    push_neg at hc
    have h3 : (a + b - 1) / b * b + 1 ≤ a := hc
    have h2 : ((a + b - 1) / b + 1) * b ≤ a + b - 1 := by
      calc ((a + b - 1) / b + 1) * b = (a + b - 1) / b * b + b := by ring
        _ ≤ a - 1 + b := by omega
        _ = a + b - 1 := by omega
    have h4 : (a + b - 1) / b + 1 ≤ (a + b - 1) / b := by
      rw [Nat.le_div_iff_mul_le (by omega : 0 < b)]
      exact h2
    omega

theorem le_roadmap_slides_needed_mul (m ipp : ℕ) (h : 1 ≤ ipp) :
    m ≤ roadmap_slides_needed m ipp * ipp := by
  unfold roadmap_slides_needed
  calc m ≤ (m + ipp - 1) / ipp * ipp := le_ceil_div_mul m ipp h
    _ ≤ max ((m + ipp - 1) / ipp) 1 * ipp :=
        Nat.mul_le_mul_right _ (le_max_left _ _)

theorem slides_needed_eq (total ipp : ℕ) (h : 1 ≤ ipp) :
    slides_needed total ipp = roadmap_slides_needed total ipp := by
  unfold slides_needed roadmap_slides_needed
  rcases Nat.eq_zero_or_pos total with rfl | h0
  · have h1 : (0 + ipp - 1) / ipp = 0 := Nat.div_eq_of_lt (by omega)
    rw [h1, if_neg (lt_irrefl 0)]
    exact (max_eq_right (Nat.zero_le 1)).symm
  · rw [if_pos h0]

/-! ## Roadmap table model and grouping -/

/-- One row of the normalized roadmap table built by `read_roadmap`
(generator.py:144-148).  `timeline` is never missing (rows with a blank
timeline are dropped, generator.py:142); `phase` and `workpackage` may be
missing (`NaN`), which pandas' `dropna` and `groupby` skip. -/
structure RoadRow (τ φ ω : Type) where
  timeline : τ
  phase : Option φ
  workpackage : Option ω
  deriving DecidableEq, Repr

/-- Distinct values of a list in order of first appearance, with an
accumulator of values already seen: the key order produced by pandas
`groupby(..., sort=False)` and by `Series.unique()`. -/
def firstAppearAux [DecidableEq κ] (seen : List κ) : List κ → List κ
  | [] => []
  | k :: ks =>
      if k ∈ seen then firstAppearAux seen ks
      else k :: firstAppearAux (k :: seen) ks

/-- Distinct values in order of first appearance. -/
def firstAppear [DecidableEq κ] (l : List κ) : List κ := firstAppearAux [] l

/-- Ascending insertion sort; pandas `groupby` with the default `sort=True`
presents the distinct keys in this order. -/
def sortKeys [LinearOrder κ] (l : List κ) : List κ := l.insertionSort (· ≤ ·)

/-- pandas `df.groupby(key)` with the default `sort=True`: one group per
distinct key, keys ascending, each group keeping the original row order. -/
def groupbySorted [LinearOrder κ] (rows : List ρ) (key : ρ → κ) :
    List (κ × List ρ) :=
  (sortKeys (firstAppear (rows.map key))).map
    (fun k => (k, rows.filter (fun r => decide (key r = k))))

/-- pandas `df.groupby(key, sort=False)`: keys in order of first
appearance. -/
def groupbyStable [DecidableEq κ] (rows : List ρ) (key : ρ → κ) :
    List (κ × List ρ) :=
  (firstAppear (rows.map key)).map
    (fun k => (k, rows.filter (fun r => decide (key r = k))))

/-- `phase_data_list` for one timeline group (generator.py:814, 821-829):
`group.groupby('Phase')` (sorted keys, `NaN` phases dropped by pandas), and
for each phase `phase_data['Workpackage'].dropna().tolist()`. -/
def phase_data_list [LinearOrder φ] [DecidableEq φ]
    (g : List (RoadRow τ φ ω)) : List (φ × List ω) :=
  (sortKeys (firstAppear (g.filterMap (fun r => r.phase)))).map
    (fun p => (p, (g.filter (fun r => decide (r.phase = some p))).filterMap
      (fun r => r.workpackage)))

/-- `max_items_any_phase = max([pd['total_items'] for pd in ...], default=0)`
(generator.py:836). -/
def max_items_any_phase (pdl : List (φ × List ω)) : ℕ :=
  (pdl.map (fun pw => pw.2.length)).foldr max 0

/-- The phase columns drawn on one slide of a timeline (generator.py:891-930):
every phase of `phase_data_list` appears in order; a column's content box is
present only when its slice for this slide is non-empty
(`if items_for_this_slide:` at generator.py:925). -/
def slide_columns (ipp slideNum : ℕ) (pdl : List (φ × List ω)) :
    List (φ × Option (List ω)) :=
  pdl.map (fun pw =>
    (pw.1, if (page_slice pw.2 ipp slideNum).isEmpty then none
           else some (page_slice pw.2 ipp slideNum)))

/-- The sequence of slides emitted for one timeline group
(generator.py:836-843, 891-899). -/
def timeline_slides (ipp : ℕ) (pdl : List (φ × List ω)) :
    List (List (φ × Option (List ω))) :=
  (List.range (roadmap_slides_needed (max_items_any_phase pdl) ipp)).map
    (fun n => slide_columns ipp n pdl)

/-- `create_roadmap_slides` (generator.py:796-980): group the table by
`Timeline` with pandas' default sorting (generator.py:810), and emit each
timeline's paginated slides. -/
def create_roadmap_slides [LinearOrder τ] [LinearOrder φ] [DecidableEq φ]
    (ipp : ℕ) (rows : List (RoadRow τ φ ω)) :
    List (τ × List (List (φ × Option (List ω)))) :=
  (groupbySorted rows (fun r => r.timeline)).map
    (fun tg => (tg.1, timeline_slides ipp (phase_data_list tg.2)))

/-! ## Column resolution in read_roadmap (generator.py:124-131) -/

/-- Whether a character list starts with another character list. -/
def leadsWith : List Char → List Char → Bool
  | [], _ => true
  | _ :: _, [] => false
  | a :: as, b :: bs => a == b && leadsWith as bs

/-- Whether a character list occurs contiguously inside another. -/
def occursIn (needle : List Char) : List Char → Bool
  | [] => needle.isEmpty
  | b :: bs => leadsWith needle (b :: bs) || occursIn needle bs

/-- Python `needle in hay` on strings: contiguous substring test. -/
def pyIn (needle hay : String) : Bool := occursIn needle.toList hay.toList

/-- Python `col.lower()` for the ASCII header names handled here:
per-character lowering. -/
def lowerStr (s : String) : String := String.mk (s.data.map Char.toLower)

/-- The three column slots being resolved: timeline, phase, workpackage. -/
structure ColSlots where
  timeline : Option String
  phase : Option String
  workpackage : Option String
  deriving DecidableEq, Repr

/-- One iteration of the `for col in df.columns:` loop (generator.py:124-131).
The first branch is Python's
`'timeline' in col_lower or 'phase' in col_lower and timeline_col is None`,
which by operator precedence is
`'timeline' in col_lower or ('phase' in col_lower and timeline_col is None)`. -/
def resolveStep (s : ColSlots) (col : String) : ColSlots :=
  let colLower := lowerStr col
  if pyIn "timeline" colLower || (pyIn "phase" colLower && s.timeline.isNone) then
    { s with timeline := some col }
  else if pyIn "phase" colLower && s.phase.isNone then
    { s with phase := some col }
  else if pyIn "workpackage" colLower || pyIn "work package" colLower then
    { s with workpackage := some col }
  else
    s

/-- The full column-resolution loop of `read_roadmap`, starting from all three
slots unassigned.  The column names have already been stripped
(`df.columns.str.strip()`, generator.py:117). -/
def resolveCols (cols : List String) : ColSlots :=
  cols.foldl resolveStep { timeline := none, phase := none, workpackage := none }

/-! ## Overview slide and presentation assembly -/

/-- Python truthiness-and-strip test `phase and str(phase).strip()`
(generator.py:709) specialised to strings: false for the empty string and for
whitespace-only strings. -/
def pyNonBlank (s : String) : Bool := !(s == "") && !(s.trim == "")

/-- `timeline_phase_items` of `create_timeline_overview_slide`
(generator.py:700-719): group by `Timeline` with `sort=False`, take each
group's `Phase` column, `dropna().unique()`, and append one `(timeline,
phase)` item per non-blank phase; a timeline whose phase list is empty after
`dropna` contributes a single `(timeline, None)` item. -/
def timeline_phase_items [DecidableEq τ]
    (rows : List (RoadRow τ String ω)) : List (τ × Option String) :=
  (groupbyStable rows (fun r => r.timeline)).flatMap
    (fun tg =>
      let phases := firstAppear (tg.2.filterMap (fun r => r.phase))
      if phases.isEmpty then
        [(tg.1, none)]
      else
        (phases.filter pyNonBlank).map (fun p => (tg.1, some p)))

/-- `create_timeline_overview_slide` (generator.py:653-722): no slide at all
when the table is empty (generator.py:655); otherwise one slide whose pentagon
items are `timeline_phase_items` — when that list is empty the function
returns right after having added the slide and its title
(generator.py:721-722), so the slide carries zero pentagon shapes. -/
def create_timeline_overview_slide [DecidableEq τ]
    (rows : List (RoadRow τ String ω)) : Option (List (τ × Option String)) :=
  if rows.isEmpty then none else some (timeline_phase_items rows)

/-- Result of `read_roadmap` (generator.py:108-160): the parsed table, or the
empty table when the `Roadmap` sheet is missing or unreadable
(`except` branch, generator.py:151-153).  The sheet argument is the outcome of
`pd.read_excel(..., sheet_name='Roadmap')` followed by the normalisation
steps: `none` when reading raised. -/
def read_roadmap (sheet : Option (List (RoadRow τ String ω))) :
    List (RoadRow τ String ω) :=
  match sheet with
  | none => []
  | some rows => rows

/-- One slide of the generated deck, carrying the data relevant here. -/
inductive Slide (τ ω : Type) where
  | title : Slide τ ω
  | objectives : List ω → Slide τ ω
  | overview : List (τ × Option String) → Slide τ ω
  | roadmap : τ → List (String × Option (List ω)) → Slide τ ω
  deriving DecidableEq

/-- `generate_presentation` (generator.py:983-1028): title slide, paginated
objectives slides, overview slide (if any), then the roadmap detail slides,
in that order (generator.py:1019-1022).  `ipp` is the
`items_per_slide` value computed by each paginating function from the
configured layout constants (generator.py:475 and 833). -/
def generate_presentation [LinearOrder τ]
    (keyElements : List ω) (ipp : ℕ)
    (roadmapSheet : Option (List (RoadRow τ String ω))) : List (Slide τ ω) :=
  let rows := read_roadmap roadmapSheet
  Slide.title ::
    (create_objectives_slide ipp keyElements).map Slide.objectives
    ++ (match create_timeline_overview_slide rows with
        | none => []
        | some items => [Slide.overview items])
    ++ (create_roadmap_slides ipp rows).flatMap
        (fun tg => tg.2.map (Slide.roadmap tg.1))

/-! ## Supporting lemmas -/

theorem mem_firstAppearAux [DecidableEq κ] (l : List κ) :
    ∀ seen k, k ∈ firstAppearAux seen l ↔ k ∈ l ∧ k ∉ seen := by
  induction l with
  | nil => intro seen k; simp [firstAppearAux]
  | cons a as ih =>
      intro seen k
      unfold firstAppearAux
      by_cases ha : a ∈ seen
      · rw [if_pos ha, ih]
        constructor
        · rintro ⟨h1, h2⟩
          exact ⟨List.mem_cons_of_mem a h1, h2⟩
        · rintro ⟨h1, h2⟩
          rcases List.mem_cons.mp h1 with rfl | h1
          · exact absurd ha h2
          · exact ⟨h1, h2⟩
      · rw [if_neg ha, List.mem_cons, ih]
        constructor
        · rintro (rfl | ⟨h1, h2⟩)
          · exact ⟨List.mem_cons_self _ _, ha⟩
          · refine ⟨List.mem_cons_of_mem a h1, ?_⟩
            intro hs
            exact h2 (List.mem_cons_of_mem a hs)
        · rintro ⟨h1, h2⟩
          rcases List.mem_cons.mp h1 with rfl | h1
          · exact Or.inl rfl
          · by_cases hk : k = a
            · exact Or.inl hk
            · refine Or.inr ⟨h1, ?_⟩
              intro hs
              rcases List.mem_cons.mp hs with h | h
              · exact hk h
              · exact h2 h

theorem mem_firstAppear [DecidableEq κ] (l : List κ) (k : κ) :
    k ∈ firstAppear l ↔ k ∈ l := by
  unfold firstAppear
  rw [mem_firstAppearAux]
  exact ⟨fun h => h.1, fun h => ⟨h, List.not_mem_nil k⟩⟩

theorem one_le_items_per_slide (avail est : ℚ) : 1 ≤ items_per_slide avail est :=
  le_max_right _ 1

theorem map_fst_groupbySorted [LinearOrder κ] (rows : List ρ) (key : ρ → κ) :
    (groupbySorted rows key).map Prod.fst = sortKeys (firstAppear (rows.map key)) := by
  unfold groupbySorted
  rw [List.map_map]
  exact List.map_id _

/-! ## Claim C1 -/

/-- Claim C1: for a non-negative total item count and a positive per-item
height estimate not exceeding the available height, the pagination used by
`create_objectives_slide` and `create_roadmap_slides` computes
`items_per_page = max(1, floor(available_height / per_item_height_estimate))`,
assigns page `i` the items in `[i * ipp, min((i+1) * ipp, total))`, and the
concatenation of all pages' slices in page order reconstructs the original
ordered item list with no gaps and no overlaps. -/
theorem pagination_reconstructs {α : Type} (l : List α) (avail est : ℚ)
    (hest : 0 < est) (hle : est ≤ avail) :
    (items_per_slide avail est : ℤ) = max 1 ⌊avail / est⌋ ∧
    (∀ i, page_slice l (items_per_slide avail est) i =
      (l.drop (i * items_per_slide avail est)).take
        (min ((i + 1) * items_per_slide avail est) l.length
          - i * items_per_slide avail est)) ∧
    (create_objectives_slide (items_per_slide avail est) l).flatten = l := by
  refine ⟨?_, ?_, ?_⟩
  · have hq : (1 : ℚ) ≤ avail / est := (one_le_div hest).mpr hle
    have hq0 : (0 : ℚ) ≤ avail / est := le_trans zero_le_one hq
    have hfl : 1 ≤ ⌊avail / est⌋ := by
      rw [Int.le_floor]
      exact_mod_cast hq
    unfold items_per_slide
    rw [pyInt_eq_floor hq0]
    have h1 : 1 ≤ ⌊avail / est⌋.toNat := by omega
    rw [max_eq_left h1, max_eq_right hfl]
    exact Int.toNat_of_nonneg (by omega)
  · intro i
    unfold page_slice
    congr 2
    ring
  · have hipp := one_le_items_per_slide avail est
    unfold create_objectives_slide
    rw [flatten_page_slices]
    apply List.take_of_length_le
    rw [slides_needed_eq _ _ hipp]
    exact le_roadmap_slides_needed_mul _ _ hipp

theorem pagination_reconstructs_witness :
    (0 : ℚ) < 1 ∧ (1 : ℚ) ≤ 2 ∧
      (create_objectives_slide (items_per_slide 2 1) [0, 1, 2, 3, 4]).flatten
        = [0, 1, 2, 3, 4] :=
  ⟨by norm_num, by norm_num,
    (pagination_reconstructs [0, 1, 2, 3, 4] 2 1 (by norm_num) (by norm_num)).2.2⟩

/-! ## Claim C7 -/

theorem max_items_any_phase_eq_zero {φ ω : Type} (pdl : List (φ × List ω))
    (h : ∀ pw ∈ pdl, pw.2 = []) : max_items_any_phase pdl = 0 := by
  induction pdl with
  | nil => rfl
  | cons a as ih =>
      unfold max_items_any_phase at *
      simp only [List.map_cons, List.foldr_cons]
      rw [h a (List.mem_cons_self a as), ih (fun pw hpw => h pw (List.mem_cons_of_mem a hpw))]
      simp

theorem roadmap_slides_needed_zero (ipp : ℕ) : roadmap_slides_needed 0 ipp = 1 := by
  unfold roadmap_slides_needed
  rcases ipp with _ | n
  · rfl
  · have h0 : (0 + (n + 1) - 1) / (n + 1) = 0 := Nat.div_eq_of_lt (by omega)
    rw [h0]
    exact max_eq_right (Nat.zero_le 1)

/-- Claim C7: an empty key-element list still yields exactly one objectives
slide, whose key-element slice is empty; and a roadmap timeline all of whose
phase columns have zero remaining workpackages still yields exactly one
slide, so a section with no items keeps its title/header slide. -/
theorem empty_items_one_slide {α φ ω : Type} (ipp : ℕ) :
    create_objectives_slide ipp ([] : List α) = [[]] ∧
    ∀ pdl : List (φ × List ω), (∀ pw ∈ pdl, pw.2 = []) →
      (timeline_slides ipp pdl).length = 1 := by
  constructor
  · unfold create_objectives_slide slides_needed
    simp [page_slice]
  · intro pdl h
    unfold timeline_slides
    rw [max_items_any_phase_eq_zero pdl h, roadmap_slides_needed_zero]
    simp

theorem empty_items_one_slide_witness :
    create_objectives_slide 9 ([] : List ℕ) = [[]] ∧
      (timeline_slides 9 [("Design", ([] : List ℕ))]).length = 1 :=
  ⟨(empty_items_one_slide (φ := String) (ω := ℕ) 9).1,
    (empty_items_one_slide (α := ℕ) 9).2 [("Design", [])] (by decide)⟩

/-! ## Claim C2 -/

theorem estimated_lines_eq_spec (n : ℕ) (cpl : ℤ) :
    estimated_lines n cpl = spec_lines n cpl := by
  unfold estimated_lines spec_lines
  apply pyInt_eq_floor
  have h1 : (1 : ℤ) ≤ max 1 ((n : ℤ).fdiv cpl + 1) := le_max_left _ _
  have h2 : (0 : ℚ) ≤ ((max 1 ((n : ℤ).fdiv cpl + 1) : ℤ) : ℚ) := by
    exact_mod_cast le_trans zero_le_one h1
  exact mul_nonneg h2 (by norm_num)

theorem estimated_height_eq_spec (n : ℕ) (cpl : ℤ) (fs : ℚ) :
    estimated_height n cpl fs = spec_height_raw n cpl fs := by
  unfold estimated_height spec_height_raw
  rw [estimated_lines_eq_spec]

theorem clamp_min_eq_spec (o : Option ℚ) (h : ℚ) (ho : optPos o) :
    clamp_min o h = spec_clamp_min o h := by
  cases o with
  | none => rfl
  | some m =>
      have hm : m ≠ 0 := ne_of_gt ho
      simp only [clamp_min, spec_clamp_min]
      by_cases hlt : h < m
      · rw [if_pos ⟨hm, hlt⟩, if_pos hlt]
      · rw [if_neg (fun hc => hlt hc.2), if_neg hlt]

theorem clamp_max_eq_spec (o : Option ℚ) (h : ℚ) (ho : optPos o) :
    clamp_max o h = spec_clamp_max o h := by
  cases o with
  | none => rfl
  | some m =>
      have hm : m ≠ 0 := ne_of_gt ho
      simp only [clamp_max, spec_clamp_max]
      by_cases hlt : m < h
      · rw [if_pos ⟨hm, hlt⟩, if_pos hlt]
      · rw [if_neg (fun hc => hlt hc.2), if_neg hlt]

theorem chars_per_inch_pos (fontSize : ℚ) : 0 < chars_per_inch fontSize := by
  unfold chars_per_inch
  have h8 : (8 : ℚ) ≤ max 8 (12 * (18 / fontSize)) := le_max_left _ _
  linarith

/-- Claim C2: for every non-empty text, positive width and positive font size
(restricted, as the formula itself demands, to the inputs where
`chars_per_line ≥ 1`), `calculate_text_height` returns exactly the value of
the specification's formula, with positive supplied bounds; and for empty
text it returns `min_height` when supplied, else 0.5 inches. -/
theorem text_height_matches_spec (text : String) (width fontSize : ℚ)
    (minHeight maxHeight : Option ℚ)
    (hw : 0 < width) (hf : 0 < fontSize)
    (hmin : optPos minHeight) (hmax : optPos maxHeight)
    (hcpl : text.length ≠ 0 → 1 ≤ chars_per_line width fontSize) :
    calculate_text_height text width fontSize minHeight maxHeight
      = some (spec_text_height text width fontSize minHeight maxHeight) := by
  unfold calculate_text_height spec_text_height
  by_cases ht : text.length = 0
  · rw [if_pos ht, if_pos ht]
    cases minHeight with
    | none => rfl
    | some m =>
        have hm : m ≠ 0 := ne_of_gt hmin
        simp [pyOrQ, hm]
  · have h1 := hcpl ht
    have hwc : (0 : ℚ) ≤ width * chars_per_inch fontSize :=
      le_of_lt (mul_pos hw (chars_per_inch_pos fontSize))
    have e1 : chars_per_line width fontSize
        = ⌊width * max 8 (12 * (18 / fontSize))⌋ := by
      unfold chars_per_line
      rw [pyInt_eq_floor hwc]
      rfl
    rw [if_neg ht, if_neg ht, if_neg (by omega : ¬ chars_per_line width fontSize = 0)]
    congr 1
    rw [e1, estimated_height_eq_spec, clamp_min_eq_spec _ _ hmin,
      clamp_max_eq_spec _ _ hmax]

theorem text_height_matches_spec_witness :
    calculate_text_height "Deliver value" 5 18 (some (4/5)) (some 3)
      = some (spec_text_height "Deliver value" 5 18 (some (4/5)) (some 3)) :=
  text_height_matches_spec "Deliver value" 5 18 (some (4/5)) (some 3)
    (by norm_num) (by norm_num) (by norm_num [optPos]) (by norm_num [optPos])
    (fun _ => by norm_num [chars_per_line, chars_per_inch, pyInt])

/-! ## Claim C3 -/

theorem fdiv_mono_left {a b c : ℤ} (hc : 0 < c) (h : a ≤ b) :
    a.fdiv c ≤ b.fdiv c := by
  rw [Int.fdiv_eq_ediv _ (le_of_lt hc), Int.fdiv_eq_ediv _ (le_of_lt hc)]
  exact Int.ediv_le_ediv hc h

theorem estimated_lines_nonneg_arg (n : ℕ) (cpl : ℤ) :
    (0 : ℚ) ≤ ((max 1 ((n : ℤ).fdiv cpl + 1) : ℤ) : ℚ) * (6/5) := by
  have h1 : (1 : ℤ) ≤ max 1 ((n : ℤ).fdiv cpl + 1) := le_max_left _ _
  have h2 : (0 : ℚ) ≤ ((max 1 ((n : ℤ).fdiv cpl + 1) : ℤ) : ℚ) := by
    exact_mod_cast le_trans zero_le_one h1
  exact mul_nonneg h2 (by norm_num)

theorem estimated_lines_mono (cpl : ℤ) (hcpl : 1 ≤ cpl) {a b : ℕ} (h : a ≤ b) :
    estimated_lines a cpl ≤ estimated_lines b cpl := by
  unfold estimated_lines
  rw [pyInt_eq_floor (estimated_lines_nonneg_arg a cpl),
    pyInt_eq_floor (estimated_lines_nonneg_arg b cpl)]
  apply Int.floor_le_floor
  have hd : (a : ℤ).fdiv cpl ≤ (b : ℤ).fdiv cpl :=
    fdiv_mono_left (by omega) (by exact_mod_cast h)
  have hm : max 1 ((a : ℤ).fdiv cpl + 1) ≤ max 1 ((b : ℤ).fdiv cpl + 1) :=
    max_le_max (le_refl 1) (by omega)
  have hmq : ((max 1 ((a : ℤ).fdiv cpl + 1) : ℤ) : ℚ)
      ≤ ((max 1 ((b : ℤ).fdiv cpl + 1) : ℤ) : ℚ) := by exact_mod_cast hm
  exact mul_le_mul_of_nonneg_right hmq (by norm_num)

theorem estimated_height_mono (cpl : ℤ) (fs : ℚ) (hcpl : 1 ≤ cpl)
    (hf : 0 < fs) {a b : ℕ} (h : a ≤ b) :
    estimated_height a cpl fs ≤ estimated_height b cpl fs := by
  unfold estimated_height
  have hl := estimated_lines_mono cpl hcpl h
  have hlq : ((estimated_lines a cpl : ℤ) : ℚ) ≤ ((estimated_lines b cpl : ℤ) : ℚ) := by
    exact_mod_cast hl
  have hpos : (0 : ℚ) ≤ fs * (6/5) / 72 := by positivity
  exact mul_le_mul_of_nonneg_right hlq hpos

theorem clamp_min_mono (o : Option ℚ) {h1 h2 : ℚ} (h : h1 ≤ h2) :
    clamp_min o h1 ≤ clamp_min o h2 := by
  cases o with
  | none => exact h
  | some m =>
      simp only [clamp_min]
      by_cases hm : m = 0
      · rw [if_neg (fun hc => hc.1 hm), if_neg (fun hc => hc.1 hm)]
        exact h
      · by_cases hl1 : h1 < m
        · rw [if_pos ⟨hm, hl1⟩]
          by_cases hl2 : h2 < m
          · rw [if_pos ⟨hm, hl2⟩]
          · rw [if_neg (fun hc => hl2 hc.2)]
            linarith
        · rw [if_neg (fun hc => hl1 hc.2)]
          by_cases hl2 : h2 < m
          · rw [if_pos ⟨hm, hl2⟩]
            linarith
          · rw [if_neg (fun hc => hl2 hc.2)]
            exact h

theorem clamp_max_mono (o : Option ℚ) {h1 h2 : ℚ} (h : h1 ≤ h2) :
    clamp_max o h1 ≤ clamp_max o h2 := by
  cases o with
  | none => exact h
  | some m =>
      simp only [clamp_max]
      by_cases hm : m = 0
      · rw [if_neg (fun hc => hc.1 hm), if_neg (fun hc => hc.1 hm)]
        exact h
      · by_cases hl1 : m < h1
        · rw [if_pos ⟨hm, hl1⟩]
          by_cases hl2 : m < h2
          · rw [if_pos ⟨hm, hl2⟩]
          · rw [if_neg (fun hc => hl2 hc.2)]
            linarith
        · rw [if_neg (fun hc => hl1 hc.2)]
          by_cases hl2 : m < h2
          · rw [if_pos ⟨hm, hl2⟩]
            linarith
          · rw [if_neg (fun hc => hl2 hc.2)]
            exact h

theorem clamp_bounds (mn mx h : ℚ) (hmn : 0 < mn) (hle : mn ≤ mx) :
    mn ≤ clamp_max (some mx) (clamp_min (some mn) h) ∧
      clamp_max (some mx) (clamp_min (some mn) h) ≤ mx := by
  have hm : mn ≠ 0 := ne_of_gt hmn
  have hM : mx ≠ 0 := ne_of_gt (lt_of_lt_of_le hmn hle)
  have hinner : mn ≤ clamp_min (some mn) h := by
    simp only [clamp_min]
    by_cases hin : h < mn
    · rw [if_pos ⟨hm, hin⟩]
    · rw [if_neg (fun hc => hin hc.2)]
      exact le_of_not_lt hin
  simp only [clamp_max]
  by_cases hout : mx < clamp_min (some mn) h
  · rw [if_pos ⟨hM, hout⟩]
    exact ⟨hle, le_refl mx⟩
  · rw [if_neg (fun hc => hout hc.2)]
    exact ⟨hinner, le_of_not_lt hout⟩

/-- Counterexample to claim C3 as stated: with no bounds supplied, at width 1
inch and font size 18pt, the empty text is estimated at the 0.5in default
while the strictly longer one-character text is estimated at 0.3in, so the
estimate is not monotone in the length of the text. -/
theorem estimated_height_at_one : estimated_height 1 12 18 = 3/10 := by
  unfold estimated_height estimated_lines
  rw [(by decide : ((1 : ℕ) : ℤ).fdiv 12 = 0)]
  norm_num [pyInt]

theorem estimated_height_at_two : estimated_height 2 12 18 = 3/10 := by
  unfold estimated_height estimated_lines
  rw [(by decide : ((2 : ℕ) : ℤ).fdiv 12 = 0)]
  norm_num [pyInt]

theorem estimated_height_at_26 : estimated_height 26 12 18 = 9/10 := by
  unfold estimated_height estimated_lines
  rw [(by decide : ((26 : ℕ) : ℤ).fdiv 12 = 2)]
  norm_num [pyInt]

theorem text_height_not_monotone_empty :
    ("" : String).length ≤ ("a" : String).length ∧
      calculate_text_height "" 1 18 none none = some (1/2) ∧
      calculate_text_height "a" 1 18 none none = some (3/10) ∧
      ¬ ((1 : ℚ)/2 ≤ 3/10) := by
  refine ⟨by decide, rfl, ?_, by norm_num⟩
  have hcpl : chars_per_line 1 18 = 12 := by
    norm_num [chars_per_line, chars_per_inch, pyInt]
  unfold calculate_text_height
  rw [if_neg (by decide : ¬ ("a" : String).length = 0), hcpl,
    if_neg (by decide : ¬ (12 : ℤ) = 0),
    (by decide : ("a" : String).length = 1)]
  simp only [clamp_min, clamp_max]
  rw [estimated_height_at_one]

/-- Claim C3 as amended: for fixed positive width and font size with
`chars_per_line ≥ 1`, `calculate_text_height` is monotonically non-decreasing
in the length of the text over *non-empty* texts (the empty text, which
receives the 0.5in default or `min_height`, can exceed the estimate of a
short non-empty text); and whenever both bounds are supplied with
`0 < min_height ≤ max_height` the returned height lies within
`[min_height, max_height]` for every text, including the empty text. -/
theorem text_height_monotone_amended (width fontSize : ℚ)
    (minHeight maxHeight : Option ℚ) (hf : 0 < fontSize)
    (hcpl : 1 ≤ chars_per_line width fontSize) :
    (∀ (t1 t2 : String) (h1 h2 : ℚ), t1.length ≠ 0 → t1.length ≤ t2.length →
      calculate_text_height t1 width fontSize minHeight maxHeight = some h1 →
      calculate_text_height t2 width fontSize minHeight maxHeight = some h2 →
      h1 ≤ h2) ∧
    (∀ (mn mx : ℚ), minHeight = some mn → maxHeight = some mx →
      0 < mn → mn ≤ mx →
      ∀ (t : String) (h : ℚ),
        calculate_text_height t width fontSize minHeight maxHeight = some h →
        mn ≤ h ∧ h ≤ mx) := by
  have hne : ¬ chars_per_line width fontSize = 0 := by omega
  constructor
  · intro t1 t2 h1 h2 ht1 hlen e1 e2
    have ht2 : ¬ t2.length = 0 := by omega
    unfold calculate_text_height at e1 e2
    rw [if_neg ht1, if_neg hne] at e1
    rw [if_neg ht2, if_neg hne] at e2
    have v1 := Option.some.inj e1
    have v2 := Option.some.inj e2
    rw [← v1, ← v2]
    exact clamp_max_mono _ (clamp_min_mono _
      (estimated_height_mono _ _ hcpl hf hlen))
  · intro mn mx hmn hmx h0mn hlemx t h e
    subst hmn hmx
    unfold calculate_text_height at e
    by_cases ht : t.length = 0
    · rw [if_pos ht] at e
      have hv := Option.some.inj e
      have hp : pyOrQ (some mn) (1/2) = mn := by
        simp [pyOrQ, ne_of_gt h0mn]
      rw [hp] at hv
      rw [← hv]
      exact ⟨le_refl mn, hlemx⟩
    · rw [if_neg ht, if_neg hne] at e
      have hv := Option.some.inj e
      rw [← hv]
      exact clamp_bounds mn mx _ h0mn hlemx

theorem text_height_monotone_amended_witness :
    calculate_text_height "ab" 1 18 (some (4/5)) (some 3) = some (4/5) ∧
      calculate_text_height "abcdefghijklmnopqrstuvwxyz" 1 18 (some (4/5)) (some 3)
        = some (9/10) ∧
      (4 : ℚ)/5 ≤ 9/10 ∧ ((4 : ℚ)/5 ≤ 4/5 ∧ (4 : ℚ)/5 ≤ 3) := by
  have hcpl : chars_per_line 1 18 = 12 := by
    norm_num [chars_per_line, chars_per_inch, pyInt]
  have hc1 : (1 : ℤ) ≤ chars_per_line 1 18 := by rw [hcpl]; norm_num
  have H := text_height_monotone_amended 1 18 (some (4/5)) (some 3)
    (by norm_num) hc1
  have e1 : calculate_text_height "ab" 1 18 (some (4/5)) (some 3) = some (4/5) := by
    unfold calculate_text_height
    rw [if_neg (by decide : ¬ ("ab" : String).length = 0), hcpl,
      if_neg (by decide : ¬ (12 : ℤ) = 0),
      (by decide : ("ab" : String).length = 2), estimated_height_at_two]
    simp only [clamp_min, clamp_max]
    norm_num
  have e2 : calculate_text_height "abcdefghijklmnopqrstuvwxyz" 1 18
      (some (4/5)) (some 3) = some (9/10) := by
    unfold calculate_text_height
    rw [if_neg (by decide : ¬ ("abcdefghijklmnopqrstuvwxyz" : String).length = 0), hcpl,
      if_neg (by decide : ¬ (12 : ℤ) = 0),
      (by decide : ("abcdefghijklmnopqrstuvwxyz" : String).length = 26),
      estimated_height_at_26]
    simp only [clamp_min, clamp_max]
    norm_num
  refine ⟨e1, e2, ?_, ?_⟩
  · exact H.1 "ab" "abcdefghijklmnopqrstuvwxyz" (4/5) (9/10) (by decide)
      (by decide) e1 e2
  · exact H.2 (4/5) 3 rfl rfl (by norm_num) (by norm_num) "ab" (4/5) e1

/-! ## Claim C9 -/

/-- Counterexample to claim C9's parenthetical "always the case when width <
1/8 inch": at width 0.1in and font size 9pt, `chars_per_inch = max(8, 24) =
24`, so `chars_per_line = int(0.1 * 24) = 2 ≥ 1` and the division succeeds
even though the width is below 1/8 inch. -/
theorem small_width_no_division_error :
    (1 : ℚ)/10 < 1/8 ∧
      (calculate_text_height "abc" (1/10) 9 none none).isSome = true := by
  refine ⟨by norm_num, ?_⟩
  have hcpl : chars_per_line (1/10) 9 = 2 := by
    norm_num [chars_per_line, chars_per_inch, pyInt]
  unfold calculate_text_height
  rw [if_neg (by decide : ¬ ("abc" : String).length = 0), hcpl,
    if_neg (by decide : ¬ (2 : ℤ) = 0)]
  rfl

/-- Claim C9 as amended: `calculate_text_height` divides by `chars_per_line`
with no zero guard; for non-empty text and non-negative width the division
raises exactly when `chars_per_line = 0`, which happens whenever
`width * chars_per_inch < 1` — possible *only* when `width < 1/8` inch (since
`chars_per_inch ≥ 8`), though a width below 1/8 inch need not trigger it;
under the precondition `chars_per_line ≥ 1` the error branch is unreachable
and the function is total. -/
theorem chars_per_line_zero_division (text : String) (width fontSize : ℚ)
    (minHeight maxHeight : Option ℚ) (ht : text.length ≠ 0) (hw : 0 ≤ width) :
    (width * chars_per_inch fontSize < 1 →
      calculate_text_height text width fontSize minHeight maxHeight = none) ∧
    (width * chars_per_inch fontSize < 1 → width < 1/8) ∧
    (1 ≤ chars_per_line width fontSize →
      (calculate_text_height text width fontSize minHeight maxHeight).isSome = true) ∧
    (calculate_text_height text width fontSize minHeight maxHeight = none ↔
      chars_per_line width fontSize = 0) := by
  have hwc : (0 : ℚ) ≤ width * chars_per_inch fontSize :=
    mul_nonneg hw (le_of_lt (chars_per_inch_pos fontSize))
  have hfl : chars_per_line width fontSize = ⌊width * chars_per_inch fontSize⌋ :=
    pyInt_eq_floor hwc
  refine ⟨?_, ?_, ?_, ?_⟩
  · intro hlt
    have hz : chars_per_line width fontSize = 0 := by
      rw [hfl]
      exact Int.floor_eq_zero_iff.mpr ⟨hwc, hlt⟩
    unfold calculate_text_height
    rw [if_neg ht, if_pos hz]
  · intro hlt
    have h8 : (8 : ℚ) ≤ chars_per_inch fontSize := le_max_left _ _
    nlinarith
  · intro h1
    unfold calculate_text_height
    rw [if_neg ht, if_neg (by omega : ¬ chars_per_line width fontSize = 0)]
    rfl
  · constructor
    · intro he
      by_contra hz
      unfold calculate_text_height at he
      rw [if_neg ht, if_neg hz] at he
      exact Option.some_ne_none _ he
    · intro hz
      unfold calculate_text_height
      rw [if_neg ht, if_pos hz]

theorem chars_per_line_zero_division_witness :
    calculate_text_height "abc" (1/100) 30 none none = none ∧ (1 : ℚ)/100 < 1/8 := by
  have H := chars_per_line_zero_division "abc" (1/100) 30 none none
    (by decide) (by norm_num)
  have hlt : (1 : ℚ)/100 * chars_per_inch 30 < 1 := by
    norm_num [chars_per_inch]
  exact ⟨H.1 hlt, H.2.1 hlt⟩

/-! ## Claim C4 -/

theorem map_fst_groupbyStable [DecidableEq κ] (rows : List ρ) (key : ρ → κ) :
    (groupbyStable rows key).map Prod.fst = firstAppear (rows.map key) := by
  unfold groupbyStable
  rw [List.map_map]
  exact List.map_id _

theorem map_fst_phase_data_list [LinearOrder φ] [DecidableEq φ]
    (g : List (RoadRow τ φ ω)) :
    (phase_data_list g).map Prod.fst
      = sortKeys (firstAppear (g.filterMap (fun r => r.phase))) := by
  unfold phase_data_list
  rw [List.map_map]
  exact List.map_id _

theorem map_fst_slide_columns (ipp n : ℕ) (pdl : List (φ × List ω)) :
    (slide_columns ipp n pdl).map Prod.fst = pdl.map Prod.fst := by
  unfold slide_columns
  rw [List.map_map]
  rfl

theorem map_fst_create_roadmap_slides [LinearOrder τ] [LinearOrder φ]
    [DecidableEq φ] (ipp : ℕ) (rows : List (RoadRow τ φ ω)) :
    (create_roadmap_slides ipp rows).map Prod.fst
      = sortKeys (firstAppear (rows.map (fun r => r.timeline))) := by
  unfold create_roadmap_slides
  rw [List.map_map]
  exact map_fst_groupbySorted rows (fun r => r.timeline)

/-- Counterexample to claim C4: with timeline label 2 appearing before label
1 in the input rows, `create_roadmap_slides` emits the timeline groups in
sorted order `[1, 2]` (pandas `groupby` defaults to `sort=True`), not in
first-appearance order `[2, 1]`. -/
theorem roadmap_order_not_first_appearance :
    ((create_roadmap_slides 9
        [(⟨2, some 0, some 0⟩ : RoadRow ℕ ℕ ℕ), ⟨1, some 0, some 1⟩]).map Prod.fst
      = [1, 2]) ∧
    (firstAppear ([(⟨2, some 0, some 0⟩ : RoadRow ℕ ℕ ℕ),
        ⟨1, some 0, some 1⟩].map (fun r => r.timeline)) = [2, 1]) ∧
    ([1, 2] : List ℕ) ≠ [2, 1] := by
  decide

/-- Claim C4 as amended: the detail slides of `create_roadmap_slides` are
emitted in ascending sorted order of timeline label (pandas `groupby`
default), one group per distinct timeline of the input — not in order of
first appearance — and within each timeline's slides the phase columns appear
in ascending sorted order of phase label; first-appearance ordering applies
only to the overview slide's grouping, which passes `sort=False`. -/
theorem roadmap_order_sorted_amended {τ φ ω : Type} [LinearOrder τ]
    [LinearOrder φ] (rows : List (RoadRow τ φ ω)) (ipp : ℕ) :
    ((create_roadmap_slides ipp rows).map Prod.fst).Sorted (· ≤ ·) ∧
    ((create_roadmap_slides ipp rows).map Prod.fst).Perm
      (firstAppear (rows.map (fun r => r.timeline))) ∧
    (∀ tg ∈ create_roadmap_slides ipp rows, ∀ s ∈ tg.2,
      (s.map Prod.fst).Sorted (· ≤ ·)) ∧
    (∀ key : RoadRow τ φ ω → τ,
      (groupbyStable rows key).map Prod.fst = firstAppear (rows.map key)) := by
  refine ⟨?_, ?_, ?_, fun key => map_fst_groupbyStable rows key⟩
  · rw [map_fst_create_roadmap_slides]
    exact List.sorted_insertionSort (· ≤ ·) _
  · rw [map_fst_create_roadmap_slides]
    exact List.perm_insertionSort (· ≤ ·) _
  · intro tg htg s hs
    obtain ⟨tg', htg', rfl⟩ := List.mem_map.mp htg
    obtain ⟨n, hn, rfl⟩ := List.mem_map.mp hs
    rw [map_fst_slide_columns, map_fst_phase_data_list]
    exact List.sorted_insertionSort (· ≤ ·) _

theorem roadmap_order_sorted_amended_witness :
    (([((0 : ℕ), some [1])] : List (ℕ × Option (List ℕ))).map Prod.fst).Sorted (· ≤ ·) ∧
    ((create_roadmap_slides 9
        [(⟨2, some 0, some 0⟩ : RoadRow ℕ ℕ ℕ), ⟨1, some 0, some 1⟩]).map
          Prod.fst).Sorted (· ≤ ·) := by
  have H := roadmap_order_sorted_amended
    [(⟨2, some 0, some 0⟩ : RoadRow ℕ ℕ ℕ), ⟨1, some 0, some 1⟩] 9
  refine ⟨?_, H.1⟩
  exact H.2.2.1 (1, [[((0 : ℕ), some [1])]]) (by decide) [((0 : ℕ), some [1])] (by decide)

/-! ## Claim C6 -/

theorem ceil_div_eq_add_pred_div (m ipp : ℕ) (h : 1 ≤ ipp) :
    (⌈(m : ℚ) / (ipp : ℚ)⌉).toNat = (m + ipp - 1) / ipp := by
  have hipp : (0 : ℚ) < (ipp : ℚ) := by exact_mod_cast h
  set D := (m + ipp - 1) / ipp with hD
  have h0 : D * ipp ≤ m + ipp - 1 := by
    have h0' := Nat.div_mul_le_self (m + ipp - 1) ipp
    rw [← hD] at h0'
    exact h0'
  have h1 : D * ipp < m + ipp :=
    lt_of_le_of_lt h0 (Nat.sub_lt (by omega) one_pos)
  have h2 : ((D : ℕ) : ℚ) * (ipp : ℚ) < (m : ℚ) + (ipp : ℚ) := by exact_mod_cast h1
  have h3 : (m : ℚ) ≤ ((D : ℕ) : ℚ) * (ipp : ℚ) := by
    have h3' := le_ceil_div_mul m ipp h
    rw [← hD] at h3'
    exact_mod_cast h3'
  have hceil : ⌈(m : ℚ) / (ipp : ℚ)⌉ = (D : ℤ) := by
    rw [Int.ceil_eq_iff]
    constructor
    · rw [lt_div_iff₀ hipp]
      push_cast
      linarith
    · rw [div_le_iff₀ hipp]
      push_cast
      linarith
  rw [hceil]
  exact Int.toNat_natCast D

/-- Claim C6: for every timeline group of `create_roadmap_slides`, the number
of slides emitted equals `max(1, ceil(m / items_per_slide))` where `m` is the
maximum workpackage count over the timeline's phase columns; every phase
column appears (in order) on each of those slides; and a phase whose items
are exhausted before a later slide shows an empty column there — no content
box. -/
theorem timeline_slide_count {τ φ ω : Type} [LinearOrder τ] [LinearOrder φ]
    (ipp : ℕ) (hipp : 1 ≤ ipp) (rows : List (RoadRow τ φ ω)) :
    (∀ tg ∈ create_roadmap_slides ipp rows,
      tg.2 = timeline_slides ipp (phase_data_list
        (rows.filter (fun r => decide (r.timeline = tg.1))))) ∧
    (∀ pdl : List (φ × List ω),
      (timeline_slides ipp pdl).length
        = max 1 (⌈(max_items_any_phase pdl : ℚ) / (ipp : ℚ)⌉).toNat ∧
      (∀ s ∈ timeline_slides ipp pdl, s.map Prod.fst = pdl.map Prod.fst) ∧
      (∀ n : ℕ, ∀ pw ∈ pdl, pw.2.length ≤ n * ipp →
        (pw.1, (none : Option (List ω))) ∈ slide_columns ipp n pdl)) := by
  constructor
  · intro tg htg
    obtain ⟨tg', htg', rfl⟩ := List.mem_map.mp htg
    unfold groupbySorted at htg'
    obtain ⟨k, hk, rfl⟩ := List.mem_map.mp htg'
    rfl
  · intro pdl
    refine ⟨?_, ?_, ?_⟩
    · unfold timeline_slides
      rw [List.length_map, List.length_range, roadmap_slides_needed,
        ceil_div_eq_add_pred_div _ _ hipp]
      exact max_comm _ _
    · intro s hs
      obtain ⟨n, hn, rfl⟩ := List.mem_map.mp hs
      exact map_fst_slide_columns ipp n pdl
    · intro n pw hpw hle
      unfold slide_columns
      apply List.mem_map.mpr
      refine ⟨pw, hpw, ?_⟩
      have hslice : page_slice pw.2 ipp n = [] := by
        rw [page_slice_eq_take, List.drop_eq_nil_of_le hle]
        exact List.take_nil
      rw [hslice]
      rfl

theorem timeline_slide_count_witness :
    (timeline_slides 2 [((0 : ℕ), [10, 11, 12]), (1, [20])]).length = 2 ∧
      ((1 : ℕ), (none : Option (List ℕ)))
        ∈ slide_columns 2 1 [((0 : ℕ), [10, 11, 12]), (1, [20])] := by
  have H := (timeline_slide_count (τ := ℕ) 2 (by norm_num)
    ([] : List (RoadRow ℕ ℕ ℕ))).2 [((0 : ℕ), [10, 11, 12]), (1, [20])]
  refine ⟨?_, H.2.2 1 (1, [20]) (by decide) (by decide)⟩
  rw [H.1]
  rw [show max_items_any_phase [((0 : ℕ), [10, 11, 12]), (1, [20])] = 3 from rfl]
  have hc : ⌈((3 : ℕ) : ℚ) / ((2 : ℕ) : ℚ)⌉ = 2 := by
    rw [Int.ceil_eq_iff]
    norm_num
  rw [hc]
  decide

/-! ## Claim C5 -/

theorem resolveStep_no_match (s : ColSlots) (a : String)
    (h1 : pyIn "timeline" (lowerStr a) = false)
    (h2 : pyIn "phase" (lowerStr a) = false) :
    (resolveStep s a).timeline = s.timeline ∧ (resolveStep s a).phase = s.phase := by
  simp only [resolveStep]
  rw [h1, h2]
  simp only [Bool.false_and, Bool.false_or, Bool.false_eq_true, if_false]
  constructor <;> (split <;> rfl)

theorem resolveStep_timeline_kept (s : ColSlots) (a : String)
    (h1 : pyIn "timeline" (lowerStr a) = false)
    (hs : s.timeline.isNone = false) :
    (resolveStep s a).timeline = s.timeline := by
  simp only [resolveStep]
  rw [h1, hs]
  simp only [Bool.and_false, Bool.false_or, Bool.false_eq_true, if_false]
  split
  · rfl
  · split
    · rfl
    · rfl

theorem resolveStep_phase_cases (s : ColSlots) (a : String) :
    (resolveStep s a).phase = s.phase ∨ (resolveStep s a).phase = some a := by
  simp only [resolveStep]
  split
  · exact Or.inl rfl
  · split
    · exact Or.inr rfl
    · split
      · exact Or.inl rfl
      · exact Or.inl rfl

theorem foldl_no_match (pre : List String)
    (hpre : ∀ x ∈ pre, pyIn "timeline" (lowerStr x) = false
      ∧ pyIn "phase" (lowerStr x) = false) :
    ∀ s : ColSlots, (pre.foldl resolveStep s).timeline = s.timeline
      ∧ (pre.foldl resolveStep s).phase = s.phase := by
  induction pre with
  | nil => intro s; exact ⟨rfl, rfl⟩
  | cons a as ih =>
      intro s
      have ha := hpre a (List.mem_cons_self _ _)
      have hstep := resolveStep_no_match s a ha.1 ha.2
      have ihs := ih (fun x hx => hpre x (List.mem_cons_of_mem a hx)) (resolveStep s a)
      rw [List.foldl_cons]
      exact ⟨ihs.1.trans hstep.1, ihs.2.trans hstep.2⟩

theorem foldl_timeline_kept (l : List String)
    (hl : ∀ x ∈ l, pyIn "timeline" (lowerStr x) = false) :
    ∀ s : ColSlots, s.timeline.isNone = false →
      (l.foldl resolveStep s).timeline = s.timeline := by
  induction l with
  | nil => intro s _; rfl
  | cons a as ih =>
      intro s hs
      have ha := hl a (List.mem_cons_self _ _)
      have hstep := resolveStep_timeline_kept s a ha hs
      rw [List.foldl_cons]
      have ihs := ih (fun x hx => hl x (List.mem_cons_of_mem a hx))
        (resolveStep s a) (by rw [hstep]; exact hs)
      exact ihs.trans hstep

theorem foldl_phase_from (l : List String) :
    ∀ s : ColSlots, (l.foldl resolveStep s).phase = s.phase
      ∨ ∃ x ∈ l, (l.foldl resolveStep s).phase = some x := by
  induction l with
  | nil => intro s; exact Or.inl rfl
  | cons a as ih =>
      intro s
      rw [List.foldl_cons]
      rcases ih (resolveStep s a) with h | ⟨x, hx, hh⟩
      · rcases resolveStep_phase_cases s a with h2 | h2
        · exact Or.inl (h.trans h2)
        · exact Or.inr ⟨a, List.mem_cons_self _ _, h.trans h2⟩
      · exact Or.inr ⟨x, List.mem_cons_of_mem _ hx, hh⟩

/-- Claim C5: in `read_roadmap`'s column loop the first branch's condition
parses as `'timeline' in col_lower or ('phase' in col_lower and timeline_col
is None)`, so a header containing `'timeline'` is assigned to the timeline
slot, and a header containing `'phase'` but not `'timeline'`, encountered
while no timeline column has been chosen yet, is also assigned to the
timeline slot rather than the phase slot: a sheet whose first
timeline-or-phase-matching header is a `'Phase'` column (and that has no
other `'timeline'`-containing header) resolves that column as timeline, and
the phase slot never receives it. -/
theorem phase_header_takes_timeline_slot (pre : List String) (c : String)
    (rest : List String)
    (hpre : ∀ x ∈ pre, pyIn "timeline" (lowerStr x) = false
      ∧ pyIn "phase" (lowerStr x) = false)
    (hcp : pyIn "phase" (lowerStr c) = true)
    (hct : pyIn "timeline" (lowerStr c) = false)
    (hrest : ∀ x ∈ rest, pyIn "timeline" (lowerStr x) = false)
    (hcr : c ∉ rest) :
    (∀ (s : ColSlots) (col : String), pyIn "timeline" (lowerStr col) = true →
      (resolveStep s col).timeline = some col) ∧
    (resolveCols (pre ++ c :: rest)).timeline = some c ∧
    (resolveCols (pre ++ c :: rest)).phase ≠ some c := by
  have hfirst : ∀ (s : ColSlots) (col : String),
      pyIn "timeline" (lowerStr col) = true →
      (resolveStep s col).timeline = some col := by
    intro s col hcol
    simp only [resolveStep]
    rw [hcol]
    simp
  refine ⟨hfirst, ?_, ?_⟩
  all_goals
    unfold resolveCols
  all_goals
    rw [List.foldl_append, List.foldl_cons]
  all_goals
    have h0 := foldl_no_match pre hpre ⟨none, none, none⟩
  all_goals
    have hs1 : resolveStep (pre.foldl resolveStep ⟨none, none, none⟩) c
        = { pre.foldl resolveStep ⟨none, none, none⟩ with timeline := some c } := by
      simp only [resolveStep]
      rw [hct, hcp, h0.1]
      simp
  all_goals
    rw [hs1]
  · rw [foldl_timeline_kept rest hrest
      { pre.foldl resolveStep ⟨none, none, none⟩ with timeline := some c } rfl]
  · rcases foldl_phase_from rest
      { pre.foldl resolveStep ⟨none, none, none⟩ with timeline := some c }
      with h | ⟨x, hx, hh⟩
    · rw [h, show ({ pre.foldl resolveStep ⟨none, none, none⟩ with
          timeline := some c } : ColSlots).phase
          = (pre.foldl resolveStep ⟨none, none, none⟩).phase from rfl, h0.2]
      exact fun hcon => Option.noConfusion hcon
    · rw [hh]
      intro hcon
      exact hcr (Option.some.inj hcon ▸ hx)

theorem phase_header_takes_timeline_slot_witness :
    (resolveCols ["ID", "Phase", "Workpackage"]).timeline = some "Phase" ∧
      (resolveCols ["ID", "Phase", "Workpackage"]).phase ≠ some "Phase" := by
  have H := phase_header_takes_timeline_slot ["ID"] "Phase" ["Workpackage"]
    (by decide) (by decide) (by decide) (by decide) (by decide)
  exact ⟨H.2.1, H.2.2⟩

/-! ## Claim C8 -/

/-- Claim C8: when the `Roadmap` sheet is missing or unreadable,
`read_roadmap` returns the empty table instead of raising; on that empty
table `create_roadmap_slides` and `create_timeline_overview_slide` add zero
slides, while `generate_presentation` still consists of exactly the title
slide followed by the objectives slide(s), of which there is at least one. -/
theorem missing_roadmap_sheet_degrades {τ ω : Type} [LinearOrder τ]
    (keyElements : List ω) (ipp : ℕ) :
    read_roadmap (none : Option (List (RoadRow τ String ω))) = [] ∧
    create_roadmap_slides ipp
      (read_roadmap (none : Option (List (RoadRow τ String ω)))) = [] ∧
    create_timeline_overview_slide
      (read_roadmap (none : Option (List (RoadRow τ String ω)))) = none ∧
    generate_presentation keyElements ipp
        (none : Option (List (RoadRow τ String ω)))
      = Slide.title :: (create_objectives_slide ipp keyElements).map
          Slide.objectives ∧
    (create_objectives_slide ipp keyElements).length
      = slides_needed keyElements.length ipp ∧
    1 ≤ slides_needed keyElements.length ipp := by
  refine ⟨rfl, rfl, rfl, ?_, ?_, ?_⟩
  · unfold generate_presentation
    simp only [read_roadmap]
    rw [show create_timeline_overview_slide ([] : List (RoadRow τ String ω))
        = none from rfl]
    rw [show create_roadmap_slides ipp ([] : List (RoadRow τ String ω))
        = [] from rfl]
    simp
  · unfold create_objectives_slide
    rw [List.length_map, List.length_range]
  · unfold slides_needed
    split
    · exact le_max_right _ _
    · exact le_refl 1

/-! ## Claim C10 -/

theorem flatMap_eq_nil_of {α β : Type} {f : α → List β} (l : List α)
    (h : ∀ x ∈ l, f x = []) : l.flatMap f = [] := by
  induction l with
  | nil => rfl
  | cons a as ih =>
      rw [List.flatMap_cons, h a (List.mem_cons_self _ _),
        ih (fun x hx => h x (List.mem_cons_of_mem a hx))]
      rfl

theorem firstAppearAux_all_seen [DecidableEq κ] (a : κ) :
    ∀ (l : List κ), (∀ x ∈ l, x = a) → ∀ seen, a ∈ seen →
      firstAppearAux seen l = [] := by
  intro l
  induction l with
  | nil => intro _ seen _; rfl
  | cons b bs ih =>
      intro h seen hseen
      have hb : b = a := h b (List.mem_cons_self _ _)
      subst hb
      unfold firstAppearAux
      rw [if_pos hseen]
      exact ih (fun x hx => h x (List.mem_cons_of_mem b hx)) seen hseen

theorem firstAppear_all_eq [DecidableEq κ] (a : κ) (l : List κ) (hne : l ≠ [])
    (h : ∀ x ∈ l, x = a) : firstAppear l = [a] := by
  cases l with
  | nil => exact absurd rfl hne
  | cons b bs =>
      have hb : b = a := h b (List.mem_cons_self _ _)
      subst hb
      unfold firstAppear firstAppearAux
      rw [if_neg (List.not_mem_nil b)]
      rw [firstAppearAux_all_seen b bs
        (fun x hx => h x (List.mem_cons_of_mem b hx)) [b]
        (List.mem_cons_self _ _)]

theorem filterMap_phase_all_blank {τ ω : Type} (g : List (RoadRow τ String ω))
    (h : ∀ r ∈ g, r.phase = some "") :
    ∀ p ∈ g.filterMap (fun r => r.phase), p = "" := by
  intro p hp
  obtain ⟨r, hr, hrp⟩ := List.mem_filterMap.mp hp
  rw [h r hr] at hrp
  exact (Option.some.inj hrp).symm

theorem filterMap_phase_ne_nil {τ ω : Type} (g : List (RoadRow τ String ω))
    (hne : g ≠ []) (h : ∀ r ∈ g, r.phase = some "") :
    g.filterMap (fun r => r.phase) ≠ [] := by
  cases g with
  | nil => exact absurd rfl hne
  | cons r rs =>
      intro hcon
      have hr : r.phase = some "" := h r (List.mem_cons_self _ _)
      have : ("" : String) ∈ (r :: rs).filterMap (fun r => r.phase) :=
        List.mem_filterMap.mpr ⟨r, List.mem_cons_self _ _, hr⟩
      rw [hcon] at this
      exact List.not_mem_nil _ this

/-- Claim C10: on the timeline-overview slide, when every roadmap row's
`Phase` is the blank string (as `read_roadmap` produces when the sheet has no
phase column), the blank phases survive `dropna`, so the timeline-with-no-
phases fallback never fires and each blank phase is skipped by the
`if phase and str(phase).strip()` test: `timeline_phase_items` is empty, yet
the overview slide was already added with its title, so the result is a slide
containing only the title and no pentagon shapes. -/
theorem blank_phases_overview_title_only {τ ω : Type} [DecidableEq τ]
    (rows : List (RoadRow τ String ω)) (hne : rows ≠ [])
    (hblank : ∀ r ∈ rows, r.phase = some "") :
    timeline_phase_items rows = [] ∧
      create_timeline_overview_slide rows = some [] := by
  have hitems : timeline_phase_items rows = [] := by
    unfold timeline_phase_items
    apply flatMap_eq_nil_of
    intro tg htg
    unfold groupbyStable at htg
    obtain ⟨k, hk, rfl⟩ := List.mem_map.mp htg
    have hgne : rows.filter (fun r => decide (r.timeline = k)) ≠ [] := by
      rw [mem_firstAppear] at hk
      obtain ⟨r, hr, hrk⟩ := List.mem_map.mp hk
      intro hemp
      have hmem : r ∈ rows.filter (fun r => decide (r.timeline = k)) :=
        List.mem_filter.mpr ⟨hr, by simp [hrk]⟩
      rw [hemp] at hmem
      exact List.not_mem_nil r hmem
    have hgblank : ∀ r ∈ rows.filter (fun r => decide (r.timeline = k)),
        r.phase = some "" :=
      fun r hr => hblank r (List.mem_filter.mp hr).1
    have hphases : firstAppear ((rows.filter
        (fun r => decide (r.timeline = k))).filterMap (fun r => r.phase))
        = [""] :=
      firstAppear_all_eq ""
        ((rows.filter (fun r => decide (r.timeline = k))).filterMap
          (fun r => r.phase))
        (filterMap_phase_ne_nil _ hgne hgblank)
        (filterMap_phase_all_blank _ hgblank)
    simp only [hphases]
    rw [if_neg (by decide : ¬ ([""] : List String).isEmpty = true)]
    rw [show ([""] : List String).filter pyNonBlank = [] from rfl]
    rfl
  refine ⟨hitems, ?_⟩
  unfold create_timeline_overview_slide
  rw [if_neg (by simp [hne] : ¬ rows.isEmpty = true), hitems]

theorem blank_phases_overview_title_only_witness :
    timeline_phase_items [(⟨1, some "", some 5⟩ : RoadRow ℕ String ℕ)] = [] ∧
      create_timeline_overview_slide
        [(⟨1, some "", some 5⟩ : RoadRow ℕ String ℕ)] = some [] :=
  blank_phases_overview_title_only [⟨1, some "", some 5⟩]
    (by decide) (by decide)
